import Mathlib

/-!
Verification of the CGnet/CGSchNet example notebooks.

This file gives a shallow embedding of the two notebooks in the repository:

* the SchNet-embeddings training notebook (called the schnet notebook below), and
* Variable-Sized-Data-With-CGSchNet.ipynb (called the variable notebook below).

Numeric arrays are modelled as nested lists over the rationals (coordinates and
forces) or the naturals (embedding codes and histogram counts); float
mathematics from numpy is modelled over the real numbers.  Notebook control
flow that matters to the claims (the training loops, the order of the cells,
the file-system effects) is modelled as explicit event traces, each definition
carrying a reference to the notebook cell it is translated from.
-/

set_option autoImplicit false

namespace CGnetNB

/-! ### Embedding codes

Both notebooks build the per-frame embedding vector with
np.tile([6, 7, 6, 6, 7], [coords.shape[0], 1])
(schnet notebook line 95, variable notebook line 71). -/

/-- The per-frame embedding vector [6, 7, 6, 6, 7]: the atomic numbers of the
backbone beads C-N-C-C-N. -/
def embeddingRow : List ℕ := [6, 7, 6, 6, 7]

/-- np.tile([6, 7, 6, 6, 7], [n, 1]): one copy of the embedding row per frame. -/
def tile_embeddings (n : ℕ) : List (List ℕ) := List.replicate n embeddingRow

/-- Hyperparameter n_embeddings = 10 (schnet notebook line 182, variable
notebook line 221). -/
def n_embeddings : ℕ := 10

/-- Hyperparameter lipschitz_strength = 4.0 (schnet notebook line 179,
variable notebook line 218). -/
def lipschitz_strength : ℚ := 4

/-! ### The variable-length dataset construction

Variable notebook lines 93-102:

random_lengths = np.random.randint(2, high=6, size=len(coords));
then for each example number, coords[num, :length, :], forces[num, :length, :]
and embeddings[num, :length] are appended to the varied lists. -/

/-- A frame is a list of beads, each bead a list of coordinates. -/
abbrev Frame := List (List ℚ)

/-- The truncation loop for coordinates (and forces): example number num keeps
the first random_lengths[num] beads of frame num. -/
def varied_coords (coords : List Frame) (randomLengths : List ℕ) : List Frame :=
  List.zipWith (fun len frame => frame.take len) randomLengths coords

/-- The truncation loop for embeddings: example number num keeps the first
random_lengths[num] entries of embedding row num. -/
def varied_embeddings (embeddings : List (List ℕ)) (randomLengths : List ℕ) :
    List (List ℕ) :=
  List.zipWith (fun len e => e.take len) randomLengths embeddings

/-! ### The seeded random construction, for the determinism claim

The variable notebook calls np.random.seed(1133) in its first code cell
(line 53), before any random draw; the only random draw of the notebook is
np.random.randint(2, high=6, size=len(coords)) at line 93.  The numpy
generator is modelled abstractly: a seed function building a generator state
from the seed, and a draw function producing the list of randint samples from
a state.  np.random.seed replaces whatever generator state existed before. -/

/-- np.random.seed: the ambient generator state is discarded and replaced by
the state determined by the seed alone. -/
def np_random_seed {σ : Type} (seedFn : ℕ → σ) (_ambient : σ) (seed : ℕ) : σ :=
  seedFn seed

/-- The dataset-building part of the variable notebook, from the ambient
generator state: seed with 1133, draw the random lengths, truncate
coordinates, forces and embeddings (variable notebook lines 53, 69-71,
93-102). -/
def variable_dataset_run {σ : Type} (seedFn : ℕ → σ)
    (randintStream : σ → ℕ → List ℕ) (ambient : σ)
    (coords forces : List Frame) :
    List ℕ × List Frame × List Frame × List (List ℕ) :=
  let s := np_random_seed seedFn ambient 1133
  let randomLengths := randintStream s coords.length
  (randomLengths,
   varied_coords coords randomLengths,
   varied_coords forces randomLengths,
   varied_embeddings (tile_embeddings coords.length) randomLengths)

/-- The same dataset construction with the np.random.seed(1133) call removed:
the random lengths are drawn from the ambient generator state.  This foil
definition is only used to show that the seed call is what makes
variable_dataset_run independent of the ambient state. -/
def unseeded_dataset_run {σ : Type} (randintStream : σ → ℕ → List ℕ)
    (ambient : σ) (coords forces : List Frame) :
    List ℕ × List Frame × List Frame × List (List ℕ) :=
  let randomLengths := randintStream ambient coords.length
  (randomLengths,
   varied_coords coords randomLengths,
   varied_coords forces randomLengths,
   varied_embeddings (tile_embeddings coords.length) randomLengths)

/-! ### np.arange and the initial simulation coordinates

Both notebooks build the initial simulation coordinates as
np.concatenate([coords[i].reshape(-1,5,3) for i in
np.arange(0, coords.shape[0], coords.shape[0]//n_sims)], axis=0)
(schnet notebook lines 424-427, variable notebook lines 413-416), and the
simulation embeddings as embeddings[:n_sims] (lines 429 and 418). -/

/-- np.arange(i, stop, step) for natural start, stop and step: the values
i, i+step, i+2*step, ... strictly below stop.  numpy rejects step = 0, which
is modelled by returning the empty list. -/
def arangeFrom (stop step i : ℕ) : List ℕ :=
  if h : 0 < step ∧ i < stop then i :: arangeFrom stop step (i + step)
  else []
termination_by stop - i
decreasing_by
  have h1 : 0 < step := h.1
  have h2 : i < stop := h.2
  omega

/-- np.arange(0, stop, step). -/
def np_arange (stop step : ℕ) : List ℕ := arangeFrom stop step 0

/-- The initial coordinates passed to Simulation: one (5, 3) frame per index in
np.arange(0, N, N//n_sims); each coords[i].reshape(-1, 5, 3) contributes
exactly one frame to the concatenation. -/
def initial_coords (coords : List Frame) (nSims : ℕ) : List Frame :=
  (np_arange coords.length (coords.length / nSims)).map
    (fun i => coords.getD i [])

/-- The embeddings passed to Simulation: embeddings[:n_sims]. -/
def sim_embeddings (n nSims : ℕ) : List (List ℕ) :=
  (tile_embeddings n).take nSims

/-! ### The training loops as event traces

The schnet notebook trains with an explicit loop (lines 331-364):
for each batch, optimizer.zero_grad(); forward; batch_loss =
ala2_net.criterion(pred_force, force); batch_loss.backward();
optimizer.step(); lipschitz_projection(ala2_net, strength=lipschitz_strength);
then a conditional batch printout, and per epoch a printout, an append to the
loss list and scheduler.step().  The criterion of the CGnet is the ForceLoss
passed at construction (line 290).

The variable notebook trains by calling dataset_loss(variable_model, loader,
optimizer, verbose_interval=batch_freq) once per epoch followed by
scheduler.step() (lines 350-356).  The body of dataset_loss is cgnet library
code not included under src/. -/

/-- The loss function passed to loss.backward(). -/
inductive LossFn
  | forceLoss
  | mseLoss
deriving DecidableEq

/-- The tensors a loss is applied to. -/
inductive Quantity
  | predForce
  | refForce
  | energy
  | coordsQ
deriving DecidableEq

/-- One step of the training loop, as an event. -/
inductive TrainEvent
  | zeroGrad
  | forward
  | backward (fn : LossFn) (a b : Quantity)
  | optStep
  | lipschitz (strength : ℚ)
  | schedStep
  | logPrint
deriving DecidableEq

/-- The CGnet container, keeping the fields the claims are about: the
criterion passed at construction and whether priors were supplied. -/
structure CGnetModel where
  criterion : LossFn
  hasPriors : Bool
deriving DecidableEq

/-- ala2_net = CGnet(layers, ForceLoss(), feature=feature_combiner,
priors=priors) (schnet notebook lines 290-292). -/
def ala2_net : CGnetModel := ⟨LossFn.forceLoss, true⟩

/-- variable_model = CGnet(layers, ForceLoss(), feature=schnet_feature,
priors=None) (variable notebook lines 301-303). -/
def variable_model : CGnetModel := ⟨LossFn.forceLoss, false⟩

/-- batch_freq = 500 (schnet notebook line 312). -/
def batch_freq : ℕ := 500

/-- The events of one batch iteration of the schnet notebook training loop
(lines 336-353): zero_grad, forward, backward of
ala2_net.criterion(pred_force, force), optimizer.step(),
lipschitz_projection(ala2_net, strength=lipschitz_strength), and the batch
printout when (num+1) is a multiple of batch_freq. -/
def schnetBatchEvents (num : ℕ) : List TrainEvent :=
  [TrainEvent.zeroGrad, TrainEvent.forward,
   TrainEvent.backward ala2_net.criterion Quantity.predForce Quantity.refForce,
   TrainEvent.optStep, TrainEvent.lipschitz lipschitz_strength]
  ++ (if (num + 1) % batch_freq = 0 then [TrainEvent.logPrint] else [])

/-- The batches of one epoch of the schnet notebook, batch numbers starting at
num. -/
def schnetBatches : ℕ → ℕ → List TrainEvent
  | _, 0 => []
  | num, k + 1 => schnetBatchEvents num ++ schnetBatches (num + 1) k

/-- One epoch of the schnet notebook: the batches, the epoch printout
(epoch_freq = 1, so every epoch prints) and scheduler.step() (lines 331-364). -/
def schnetEpochEvents (nBatches : ℕ) : List TrainEvent :=
  schnetBatches 0 nBatches ++ [TrainEvent.logPrint, TrainEvent.schedStep]

/-- The whole schnet notebook training loop over the given number of epochs,
each epoch running the given number of batches. -/
def schnetTrainingEvents : ℕ → ℕ → List TrainEvent
  | 0, _ => []
  | e + 1, nB => schnetEpochEvents nB ++ schnetTrainingEvents e nB

/-- Modelled from the spec: the body of dataset_loss (cgnet.network) is not
under src/; the spec describes the training it performs as force matching
delegated to the library.  It is modelled as running, for each batch of the
loader, one optimization step of the force-matching loss of the model
criterion; neither the spec nor the calling cell attaches a Lipschitz
projection to it. -/
def datasetLossBatches (model : CGnetModel) : ℕ → List TrainEvent
  | 0 => []
  | k + 1 =>
    [TrainEvent.zeroGrad, TrainEvent.forward,
     TrainEvent.backward model.criterion Quantity.predForce Quantity.refForce,
     TrainEvent.optStep]
    ++ datasetLossBatches model k

/-- One epoch of the variable notebook training loop (lines 350-356):
train_loss = dataset_loss(variable_model, loader, optimizer, ...) followed by
scheduler.step(). -/
def variableEpochEvents (nBatches : ℕ) : List TrainEvent :=
  datasetLossBatches variable_model nBatches ++ [TrainEvent.schedStep]

/-- The whole variable notebook training loop over the given number of epochs. -/
def variableTrainingEvents : ℕ → ℕ → List TrainEvent
  | 0, _ => []
  | e + 1, nB => variableEpochEvents nB ++ variableTrainingEvents e nB

/-- Checks that a single event, if it is a backward pass, backpropagates the
force-matching criterion applied to the predicted and the reference forces. -/
def backwardIsForceMatching : TrainEvent → Bool
  | TrainEvent.backward fn a b =>
    decide (fn = LossFn.forceLoss) && decide (a = Quantity.predForce)
      && decide (b = Quantity.refForce)
  | _ => true

/-- Every backward pass of the trace backpropagates the force-matching loss. -/
def allBackwardsForceMatching (tr : List TrainEvent) : Bool :=
  tr.all backwardIsForceMatching

/-- Every optimizer step of the trace is immediately followed by a Lipschitz
projection with strength lipschitz_strength. -/
def optFollowedByLip : List TrainEvent → Bool
  | [] => true
  | TrainEvent.optStep :: rest =>
    (match rest with
     | TrainEvent.lipschitz s :: _ => decide (s = lipschitz_strength)
     | _ => false)
    && optFollowedByLip rest
  | _ :: rest => optFollowedByLip rest

/-- Whether any Lipschitz projection at all occurs in the trace. -/
def mentionsLipschitz (tr : List TrainEvent) : Bool :=
  tr.any fun e =>
    match e with
    | TrainEvent.lipschitz _ => true
    | _ => false

/-! ### The notebook cell sequence as a phase trace

Each top-level action of a notebook, in execution order, is tagged with the
pipeline phase it belongs to: data loading (np.load), dataset construction,
model construction, the training loop, the simulation run, a plotting command,
or none of those. -/

/-- The pipeline phase of a notebook action. -/
inductive Phase
  | load
  | dataset
  | model
  | train
  | sim
  | plot
  | other
deriving DecidableEq

/-- The schnet notebook as a phase trace, one entry per top-level action in
cell order: imports and device (other); np.load of coordinates and forces
(lines 69-70); np.tile embeddings (line 95, other); MoleculeDataset (line
112); GeometryStatistics and prior statistics (lines 131-141, other);
GeometryFeature (lines 150-153); hyperparameters (other); CGBeadEmbedding,
GaussianRBF and SchnetFeature (lines 208-220); FeatureCombiner (lines
238-243); layers (lines 261-271); priors (lines 280-281); CGnet (lines
290-292); loader, optimizer, scheduler (other); the training loop (lines
331-364); the training-loss figure (lines 376-383); simulation
hyperparameters (other); initial coordinates, Simulation and sim.simulate()
(lines 424-440); trajectory analysis (other); the scatter figures (lines
489-515); the definition of plot_ramachandran (other); the Ramachandran
figure (lines 569-579). -/
def schnetPhases : List Phase :=
  [Phase.other, Phase.load, Phase.load, Phase.other, Phase.dataset,
   Phase.other, Phase.model, Phase.other, Phase.model, Phase.model,
   Phase.model, Phase.model, Phase.model, Phase.other, Phase.train,
   Phase.plot, Phase.other, Phase.sim, Phase.other, Phase.plot,
   Phase.other, Phase.plot]

/-- The variable notebook as a phase trace, one entry per top-level action in
cell order: imports, device and np.random.seed (other); np.load of
coordinates and forces (lines 69-70); np.tile embeddings (line 71, other);
the random truncation building the varied lists (lines 93-102, dataset);
MultiMoleculeDataset (line 125, dataset); the getitem inspection (other); the
demonstration DataLoader (other); hyperparameters (other); CGBeadEmbedding
(line 245); GaussianRBF and SchnetFeature (lines 261-271); layers and CGnet
(lines 289-304); loader, optimizer, scheduler (other); the dataset_loss
training loop (lines 350-359); the training-loss figure (lines 368-374);
simulation constants (other); then in the simulation cell (lines 409-427):
np.load of coordinates and forces again, np.tile embeddings (other),
Simulation and sim.simulate(); trajectory analysis (other); the scatter
figures (lines 467-491); the definition of plot_ramachandran (other); the
Ramachandran figure (lines 545-555). -/
def variablePhases : List Phase :=
  [Phase.other, Phase.load, Phase.load, Phase.other, Phase.dataset,
   Phase.dataset, Phase.other, Phase.other, Phase.other, Phase.model,
   Phase.model, Phase.model, Phase.other, Phase.train, Phase.plot,
   Phase.other, Phase.load, Phase.load, Phase.other, Phase.sim,
   Phase.other, Phase.plot, Phase.other, Phase.plot]

/-- The actions belonging to one of the six pipeline phases, in order. -/
def pipelineActions (tr : List Phase) : List Phase :=
  tr.filter (fun p => decide (p ≠ Phase.other))

/-- Collapses consecutive repetitions, so that a contiguous block of actions
of one phase counts as a single occurrence of that phase. -/
def dedupRuns : List Phase → List Phase
  | [] => []
  | [x] => [x]
  | x :: y :: r => if x = y then dedupRuns (y :: r) else x :: dedupRuns (y :: r)

/-! ### File-system effects

The only disk reads of either notebook are np.load of the two .npy arrays;
the only conditional disk write is torch.save of the trained model, guarded
by the save_model flag (schnet notebook lines 366-367, variable notebook
lines 358-359); the remaining output artifacts are figures. -/

/-- A file-system or output effect of a notebook run. -/
inductive FSEffect
  | readNpy (path : String)
  | writeFile (path : String)
  | figure
deriving DecidableEq

/-- The effect trace of the schnet notebook as a function of the save_model
flag and the directory variable: the two np.load calls (lines 69-70), the
conditional torch.save(ala2_net, directory + "/ala2_cgschnet.pt") (lines
366-367), then the training-loss, scatter and Ramachandran figures. -/
def schnetEffects (saveModel : Bool) (directory : String) : List FSEffect :=
  [FSEffect.readNpy "./data/ala2_coordinates.npy",
   FSEffect.readNpy "./data/ala2_forces.npy"]
  ++ (if saveModel then [FSEffect.writeFile (directory ++ "/ala2_cgschnet.pt")]
      else [])
  ++ [FSEffect.figure, FSEffect.figure, FSEffect.figure]

/-- The effect trace of the variable notebook: the two np.load calls (lines
69-70), the conditional torch.save(variable_model, directory +
"/variable_model.pt") (lines 358-359), the training-loss figure, the repeated
np.load calls of the simulation cell (lines 409-410), then the scatter and
Ramachandran figures. -/
def variableEffects (saveModel : Bool) (directory : String) : List FSEffect :=
  [FSEffect.readNpy "./data/ala2_coordinates.npy",
   FSEffect.readNpy "./data/ala2_forces.npy"]
  ++ (if saveModel then [FSEffect.writeFile (directory ++ "/variable_model.pt")]
      else [])
  ++ [FSEffect.figure]
  ++ [FSEffect.readNpy "./data/ala2_coordinates.npy",
      FSEffect.readNpy "./data/ala2_forces.npy"]
  ++ [FSEffect.figure, FSEffect.figure]

/-- The paths read from disk in an effect trace. -/
def effectReads (l : List FSEffect) : List String :=
  l.filterMap fun e =>
    match e with
    | FSEffect.readNpy p => some p
    | _ => none

/-- The paths written to disk in an effect trace. -/
def effectWrites (l : List FSEffect) : List String :=
  l.filterMap fun e =>
    match e with
    | FSEffect.writeFile p => some p
    | _ => none

/-! ### The plot_ramachandran energy computation

Both notebooks define plot_ramachandran locally (schnet notebook lines
524-560, variable notebook lines 500-536).  Its numeric core, acting on the
bins-by-bins histogram counts:

populations = counts / np.sum(counts);
energies = -0.6 * np.log(populations, out=np.zeros_like(populations),
                         where=(populations > 0));
energies = np.where(energies,
                    energies - np.min(energies[np.nonzero(energies)]) + 1e-6,
                    0);
zvals_masked = np.ma.masked_where(energies == 0, energies).

Histogram counts are naturals, populations are rationals, and the float
computation with np.log is modelled over the reals.  np.min raises ValueError
on an empty array, modelled by the whole computation returning none. -/

/-- np.sum(counts): the total of all histogram counts. -/
def countsTotal (counts : List (List ℕ)) : ℕ := counts.flatten.sum

/-- counts / np.sum(counts): the per-bin populations. -/
def populations (counts : List (List ℕ)) : List (List ℚ) :=
  counts.map (fun r => r.map (fun (c : ℕ) => (c : ℚ) / (countsTotal counts : ℚ)))

/-- np.log with out=np.zeros_like(...) and where=(p > 0): bins with
nonpositive population bypass the logarithm and keep the prepared zero. -/
noncomputable def npLogWhere (p : ℚ) : ℝ :=
  if 0 < p then Real.log (p : ℝ) else 0

/-- np.log without the where-mask, as a partial function: the logarithm is not
defined (numpy: -inf or nan, a failure value) on a nonpositive input. -/
noncomputable def npLogOpt (p : ℚ) : Option ℝ :=
  if 0 < p then some (Real.log (p : ℝ)) else none

/-- The per-bin energy before the shift: -0.6 * np.log(p) for a populated bin,
0 for an empty one, where p is the population of a bin with count c. -/
noncomputable def binEnergy (total c : ℕ) : ℝ :=
  -0.6 * npLogWhere ((c : ℚ) / (total : ℚ))

/-- The pre-shift energies array of plot_ramachandran. -/
noncomputable def preEnergies (counts : List (List ℕ)) : List (List ℝ) :=
  (populations counts).map (fun r => r.map (fun p => -0.6 * npLogWhere p))

/-- energies[np.nonzero(energies)]: the nonzero entries of the array, in row
order. -/
noncomputable def nonzeroEntries (e : List (List ℝ)) : List ℝ :=
  e.flatten.filter (fun x => decide (x ≠ 0))

/-- np.min of a list of reals; none on the empty list, where numpy raises
ValueError. -/
noncomputable def npMin : List ℝ → Option ℝ
  | [] => none
  | x :: xs => some ((npMin xs).elim x (fun m => min x m))

/-- np.where(energies, energies - m + 1e-6, 0): entries that are nonzero are
shifted so that the lowest sits at 1e-6; zero entries stay zero. -/
noncomputable def shiftEnergies (e : List (List ℝ)) (m : ℝ) : List (List ℝ) :=
  e.map (fun r => r.map (fun x => if x ≠ 0 then x - m + 1e-6 else 0))

/-- The energies array computed by plot_ramachandran from the histogram
counts, or none where the code raises (np.min of an empty nonzero set). -/
noncomputable def plotRamachandranEnergies (counts : List (List ℕ)) :
    Option (List (List ℝ)) :=
  match npMin (nonzeroEntries (preEnergies counts)) with
  | none => none
  | some m => some (shiftEnergies (preEnergies counts) m)

/-- np.ma.masked_where(energies == 0, energies): zero entries are masked out
of the plot (none), the others keep their value. -/
noncomputable def zvalsMasked (e : List (List ℝ)) : List (List (Option ℝ)) :=
  e.map (fun r => r.map (fun x => if x = 0 then none else some x))

/-- Sequential elementwise application of a partial function, failing as soon
as one element fails; models an elementwise numpy computation that is
undefined on some element. -/
def optMapList {α β : Type} (f : α → Option β) : List α → Option (List β)
  | [] => some []
  | a :: l =>
    match f a with
    | none => none
    | some b => (optMapList f l).map (fun bs => b :: bs)

/-- The pre-shift energies as they would be without the where-guard on
np.log: undefined as soon as one bin is empty. -/
noncomputable def preEnergiesUnguarded (counts : List (List ℕ)) :
    Option (List (List ℝ)) :=
  optMapList
    (fun r => optMapList (fun p => (npLogOpt p).map (fun v => -0.6 * v)) r)
    (populations counts)

/-- The plot_ramachandran energies as they would be without the where-guard
on np.log. -/
noncomputable def plotRamachandranEnergiesUnguarded (counts : List (List ℕ)) :
    Option (List (List ℝ)) :=
  match preEnergiesUnguarded counts with
  | none => none
  | some pre =>
    match npMin (nonzeroEntries pre) with
    | none => none
    | some m => some (shiftEnergies pre m)

/-- The histogram has at least two populated bins.  Equivalently, some
population lies strictly between 0 and 1, so some pre-shift energy is
nonzero. -/
def hasTwoPopulated (counts : List (List ℕ)) : Prop :=
  2 ≤ (counts.flatten.filter (fun c => decide (0 < c))).length

instance (counts : List (List ℕ)) : Decidable (hasTwoPopulated counts) := by
  unfold hasTwoPopulated
  infer_instance

/-! ### Helper lemmas -/

lemma npMin_eq_none {l : List ℝ} : npMin l = none ↔ l = [] := by
  cases l with
  | nil => simp [npMin]
  | cons x xs => simp [npMin]

lemma npMin_mem : ∀ {l : List ℝ} {m : ℝ}, npMin l = some m → m ∈ l := by
  intro l
  induction l with
  | nil => intro m h; simp [npMin] at h
  | cons x xs ih =>
    intro m h
    cases hxs : npMin xs with
    | none =>
      rw [npMin, hxs] at h
      simp [Option.elim] at h
      simp [← h]
    | some m₂ =>
      rw [npMin, hxs] at h
      simp [Option.elim] at h
      rcases min_choice x m₂ with hc | hc
      · have hx : m = x := by rw [← h, hc]
        simp [hx]
      · have hx : m = m₂ := by rw [← h, hc]
        rw [hx]
        exact List.mem_cons_of_mem x (ih hxs)

lemma npMin_le : ∀ {l : List ℝ} {m : ℝ}, npMin l = some m → ∀ x ∈ l, m ≤ x := by
  intro l
  induction l with
  | nil => intro m h; simp [npMin] at h
  | cons x xs ih =>
    intro m h y hy
    cases hxs : npMin xs with
    | none =>
      have hnil : xs = [] := npMin_eq_none.mp hxs
      subst hnil
      rw [npMin, hxs] at h
      simp [Option.elim] at h
      simp at hy
      simp [hy, ← h]
    | some m₂ =>
      rw [npMin, hxs] at h
      simp [Option.elim] at h
      rcases List.mem_cons.mp hy with rfl | hmem
      · rw [← h]
        exact min_le_left _ _
      · have h₂ : m ≤ m₂ := by
          rw [← h]
          exact min_le_right _ _
        exact le_trans h₂ (ih hxs y hmem)

lemma npMin_map_add (a : ℝ) (l : List ℝ) :
    npMin (l.map (fun x => x + a)) = (npMin l).map (fun x => x + a) := by
  induction l with
  | nil => simp [npMin]
  | cons x xs ih =>
    rw [List.map_cons, npMin, npMin, ih]
    cases hxs : npMin xs with
    | none => simp [Option.elim]
    | some m => simp [Option.elim, min_add_add_right]

lemma filter_map_exchange {α β : Type} (f : α → β) (p : α → Bool) (q : β → Bool) :
    ∀ l : List α, (∀ x ∈ l, q (f x) = p x) →
      (l.map f).filter q = (l.filter p).map f := by
  intro l
  induction l with
  | nil => simp
  | cons x xs ih =>
    intro h
    have hx := h x (List.mem_cons_self x xs)
    have hxs := ih fun y hy => h y (List.mem_cons_of_mem x hy)
    rw [List.map_cons, List.filter_cons, List.filter_cons, hx]
    cases hpx : p x with
    | false => simp [hpx] at hx ⊢; rw [hxs]
    | true => simp [hpx] at hx ⊢; rw [hxs]

lemma forall₂_map_self {α β : Type} (f : α → β) (R : α → β → Prop) :
    ∀ l : List α, (∀ x ∈ l, R x (f x)) → List.Forall₂ R l (l.map f) := by
  intro l
  induction l with
  | nil => intro; simp
  | cons x xs ih =>
    intro h
    rw [List.map_cons]
    exact List.Forall₂.cons (h x (List.mem_cons_self x xs))
      (ih fun y hy => h y (List.mem_cons_of_mem x hy))

lemma optMapList_eq_none {α β : Type} (f : α → Option β) {l : List α} {x : α}
    (hx : x ∈ l) (hfx : f x = none) : optMapList f l = none := by
  induction l with
  | nil => simp at hx
  | cons a as ih =>
    rcases List.mem_cons.mp hx with rfl | hmem
    · rw [optMapList, hfx]
    · rw [optMapList]
      cases hfa : f a with
      | none => rfl
      | some b => rw [ih hmem]; rfl

lemma sum_lt_of_two_pos {l : List ℕ}
    (h2 : 2 ≤ (l.filter (fun c => decide (0 < c))).length) {c : ℕ}
    (hc : c ∈ l) : c < l.sum := by
  have hperm : l.Perm (c :: l.erase c) := List.perm_cons_erase hc
  have hsum : l.sum = c + (l.erase c).sum := by
    rw [hperm.sum_eq]; simp
  have hfilter : (l.filter (fun c => decide (0 < c))).length =
      ((c :: l.erase c).filter (fun c => decide (0 < c))).length :=
    (hperm.filter _).length_eq
  have hpos_in_erase : ∃ x ∈ l.erase c, 0 < x := by
    by_contra hnone
    push_neg at hnone
    have herase_empty : (l.erase c).filter (fun c => decide (0 < c)) = [] := by
      rw [List.filter_eq_nil_iff]
      intro x hx
      have hx0 := hnone x hx
      simp only [decide_eq_true_eq]
      omega
    rw [hfilter, List.filter_cons] at h2
    by_cases hdc : 0 < c
    · simp [hdc, herase_empty] at h2
    · simp [hdc, herase_empty] at h2
  obtain ⟨x, hxmem, hxpos⟩ := hpos_in_erase
  have hxle : x ≤ (l.erase c).sum :=
    List.single_le_sum (fun y _ => Nat.zero_le y) x hxmem
  omega

lemma mem_le_total {counts : List (List ℕ)} {c : ℕ}
    (hc : c ∈ counts.flatten) : c ≤ countsTotal counts :=
  List.single_le_sum (fun y _ => Nat.zero_le y) c hc

lemma mem_lt_total {counts : List (List ℕ)} (H : hasTwoPopulated counts)
    {c : ℕ} (hc : c ∈ counts.flatten) : c < countsTotal counts :=
  sum_lt_of_two_pos H hc

lemma binEnergy_zero_count (total : ℕ) : binEnergy total 0 = 0 := by
  simp [binEnergy, npLogWhere]

lemma binEnergy_nonneg {total c : ℕ} (hle : c ≤ total) :
    0 ≤ binEnergy total c := by
  rcases Nat.eq_zero_or_pos c with rfl | hpos
  · rw [binEnergy_zero_count]
  · have htot : 0 < total := lt_of_lt_of_le hpos hle
    have hp : 0 < (c : ℚ) / (total : ℚ) := by
      apply div_pos
      · exact_mod_cast hpos
      · exact_mod_cast htot
    have hp1 : (c : ℚ) / (total : ℚ) ≤ 1 := by
      rw [div_le_one (by exact_mod_cast htot)]
      exact_mod_cast hle
    rw [binEnergy, npLogWhere, if_pos hp]
    have hlog : Real.log (((c : ℚ) / (total : ℚ) : ℚ) : ℝ) ≤ 0 := by
      apply Real.log_nonpos
      · exact_mod_cast le_of_lt hp
      · exact_mod_cast hp1
    have hmul : 0 ≤ 0.6 * (-(Real.log (((c : ℚ) / (total : ℚ) : ℚ) : ℝ))) :=
      mul_nonneg (by norm_num) (neg_nonneg.mpr hlog)
    nlinarith [hmul]

lemma binEnergy_pos {total c : ℕ} (hpos : 0 < c) (hlt : c < total) :
    0 < binEnergy total c := by
  have htot : 0 < total := lt_trans hpos hlt
  have hp : 0 < (c : ℚ) / (total : ℚ) := by
    apply div_pos
    · exact_mod_cast hpos
    · exact_mod_cast htot
  have hp1 : (c : ℚ) / (total : ℚ) < 1 := by
    rw [div_lt_one (by exact_mod_cast htot)]
    exact_mod_cast hlt
  rw [binEnergy, npLogWhere, if_pos hp]
  have hlog : Real.log (((c : ℚ) / (total : ℚ) : ℚ) : ℝ) < 0 := by
    apply Real.log_neg
    · exact_mod_cast hp
    · exact_mod_cast hp1
  have hmul : 0 < 0.6 * (-(Real.log (((c : ℚ) / (total : ℚ) : ℚ) : ℝ))) :=
    mul_pos (by norm_num) (neg_pos.mpr hlog)
  nlinarith [hmul]

lemma preEnergies_eq (counts : List (List ℕ)) :
    preEnergies counts =
      counts.map (fun r => r.map (binEnergy (countsTotal counts))) := by
  unfold preEnergies populations
  rw [List.map_map]
  apply List.map_congr_left
  intro r _
  simp only [Function.comp_apply]
  rw [List.map_map]
  apply List.map_congr_left
  intro c _
  rfl

lemma preEnergies_flatten (counts : List (List ℕ)) :
    (preEnergies counts).flatten =
      counts.flatten.map (binEnergy (countsTotal counts)) := by
  rw [preEnergies_eq, List.map_flatten]

lemma nonzeroEntries_preEnergies {counts : List (List ℕ)}
    (H : hasTwoPopulated counts) :
    nonzeroEntries (preEnergies counts) =
      (counts.flatten.filter (fun c => decide (0 < c))).map
        (binEnergy (countsTotal counts)) := by
  rw [nonzeroEntries, preEnergies_flatten]
  apply filter_map_exchange
  intro c hcmem
  rw [decide_eq_decide]
  constructor
  · intro hne
    rcases Nat.eq_zero_or_pos c with rfl | hpos
    · exact absurd (binEnergy_zero_count _) hne
    · exact hpos
  · intro hpos
    exact (binEnergy_pos hpos (mem_lt_total H hcmem)).ne'

lemma npMin_preEnergies_exists {counts : List (List ℕ)}
    (H : hasTwoPopulated counts) :
    ∃ m, npMin (nonzeroEntries (preEnergies counts)) = some m ∧ 0 < m ∧
      ∀ x ∈ nonzeroEntries (preEnergies counts), m ≤ x := by
  have hne : nonzeroEntries (preEnergies counts) ≠ [] := by
    rw [nonzeroEntries_preEnergies H]
    intro hnil
    rw [List.map_eq_nil_iff] at hnil
    rw [hasTwoPopulated, hnil] at H
    simp at H
  obtain ⟨m, hm⟩ : ∃ m, npMin (nonzeroEntries (preEnergies counts)) = some m := by
    cases hmin : npMin (nonzeroEntries (preEnergies counts)) with
    | none => exact absurd (npMin_eq_none.mp hmin) hne
    | some m => exact ⟨m, rfl⟩
  refine ⟨m, hm, ?_, npMin_le hm⟩
  have hmem := npMin_mem hm
  rw [nonzeroEntries_preEnergies H] at hmem
  rw [List.mem_map] at hmem
  obtain ⟨c, hcmem, hc⟩ := hmem
  rw [List.mem_filter] at hcmem
  have hcpos : 0 < c := by simpa using hcmem.2
  rw [← hc]
  exact binEnergy_pos hcpos (mem_lt_total H hcmem.1)

lemma shiftEnergies_flatten (e : List (List ℝ)) (m : ℝ) :
    (shiftEnergies e m).flatten =
      e.flatten.map (fun x => if x ≠ 0 then x - m + 1e-6 else 0) := by
  rw [shiftEnergies]
  exact (List.map_flatten _ _).symm

lemma optFollowedByLip_zeroGrad (l : List TrainEvent) :
    optFollowedByLip (TrainEvent.zeroGrad :: l) = optFollowedByLip l := rfl

lemma optFollowedByLip_forward (l : List TrainEvent) :
    optFollowedByLip (TrainEvent.forward :: l) = optFollowedByLip l := rfl

lemma optFollowedByLip_backward (fn : LossFn) (a b : Quantity)
    (l : List TrainEvent) :
    optFollowedByLip (TrainEvent.backward fn a b :: l) = optFollowedByLip l := rfl

lemma optFollowedByLip_lip (s : ℚ) (l : List TrainEvent) :
    optFollowedByLip (TrainEvent.lipschitz s :: l) = optFollowedByLip l := rfl

lemma optFollowedByLip_sched (l : List TrainEvent) :
    optFollowedByLip (TrainEvent.schedStep :: l) = optFollowedByLip l := rfl

lemma optFollowedByLip_print (l : List TrainEvent) :
    optFollowedByLip (TrainEvent.logPrint :: l) = optFollowedByLip l := rfl

lemma optFollowedByLip_opt_lip (s : ℚ) (l : List TrainEvent) :
    optFollowedByLip (TrainEvent.optStep :: TrainEvent.lipschitz s :: l) =
      (decide (s = lipschitz_strength)
        && optFollowedByLip (TrainEvent.lipschitz s :: l)) := rfl

lemma optFollowedByLip_schnetBatch (num : ℕ) (rest : List TrainEvent) :
    optFollowedByLip (schnetBatchEvents num ++ rest) = optFollowedByLip rest := by
  unfold schnetBatchEvents
  by_cases h : (num + 1) % batch_freq = 0 <;>
    simp [h, optFollowedByLip_zeroGrad, optFollowedByLip_forward,
      optFollowedByLip_backward, optFollowedByLip_opt_lip,
      optFollowedByLip_lip, optFollowedByLip_print]

lemma optFollowedByLip_schnetBatches (k : ℕ) :
    ∀ (num : ℕ) (rest : List TrainEvent),
      optFollowedByLip (schnetBatches num k ++ rest) = optFollowedByLip rest := by
  induction k with
  | zero => intro num rest; simp [schnetBatches]
  | succ k ih =>
    intro num rest
    rw [schnetBatches, List.append_assoc, optFollowedByLip_schnetBatch, ih]

lemma optFollowedByLip_schnetEpoch (nB : ℕ) (rest : List TrainEvent) :
    optFollowedByLip (schnetEpochEvents nB ++ rest) = optFollowedByLip rest := by
  rw [schnetEpochEvents, List.append_assoc, optFollowedByLip_schnetBatches]
  rw [List.cons_append, List.cons_append, List.nil_append,
    optFollowedByLip_print, optFollowedByLip_sched]

lemma allBackwards_schnetBatch (num : ℕ) :
    allBackwardsForceMatching (schnetBatchEvents num) = true := by
  unfold schnetBatchEvents
  by_cases h : (num + 1) % batch_freq = 0 <;>
    simp [h, allBackwardsForceMatching, backwardIsForceMatching, ala2_net]

lemma allBackwards_append (x y : List TrainEvent) :
    allBackwardsForceMatching (x ++ y) =
      (allBackwardsForceMatching x && allBackwardsForceMatching y) := by
  simp [allBackwardsForceMatching, List.all_append]

lemma allBackwards_schnetBatches (k : ℕ) :
    ∀ num : ℕ, allBackwardsForceMatching (schnetBatches num k) = true := by
  induction k with
  | zero => intro num; simp [schnetBatches, allBackwardsForceMatching]
  | succ k ih =>
    intro num
    rw [schnetBatches, allBackwards_append, allBackwards_schnetBatch, ih]
    rfl

lemma allBackwards_datasetLossBatches (k : ℕ) :
    allBackwardsForceMatching (datasetLossBatches variable_model k) = true := by
  induction k with
  | zero => simp [datasetLossBatches, allBackwardsForceMatching]
  | succ k ih =>
    rw [datasetLossBatches, allBackwards_append, ih]
    simp [allBackwardsForceMatching, backwardIsForceMatching, variable_model]

lemma mentionsLipschitz_append (x y : List TrainEvent) :
    mentionsLipschitz (x ++ y) =
      (mentionsLipschitz x || mentionsLipschitz y) := by
  simp [mentionsLipschitz, List.any_append]

lemma mentionsLipschitz_datasetLossBatches (k : ℕ) :
    mentionsLipschitz (datasetLossBatches variable_model k) = false := by
  induction k with
  | zero => simp [datasetLossBatches, mentionsLipschitz]
  | succ k ih =>
    rw [datasetLossBatches, mentionsLipschitz_append, ih]
    simp [mentionsLipschitz]

lemma arangeFrom_length (stop step : ℕ) (hs : 0 < step) :
    ∀ i, (arangeFrom stop step i).length = ((stop - i) + step - 1) / step := by
  have main : ∀ n i, stop - i ≤ n →
      (arangeFrom stop step i).length = ((stop - i) + step - 1) / step := by
    intro n
    induction n with
    | zero =>
      intro i hle
      rw [arangeFrom, dif_neg (by omega : ¬ (0 < step ∧ i < stop))]
      have h0 : stop - i = 0 := by omega
      rw [h0]
      simp only [List.length_nil, Nat.zero_add]
      exact (Nat.div_eq_of_lt (by omega)).symm
    | succ n ih =>
      intro i hle
      rw [arangeFrom]
      by_cases h : 0 < step ∧ i < stop
      · rw [dif_pos h]
        have hrec := ih (i + step) (by omega)
        simp only [List.length_cons, hrec]
        have hdpos : 0 < stop - i := by omega
        have hsub : stop - (i + step) = (stop - i) - step := by omega
        rw [hsub]
        by_cases hds : stop - i ≤ step
        · have h1 : (stop - i) - step = 0 := by omega
          rw [h1]
          rw [Nat.div_eq_of_lt (by omega : 0 + step - 1 < step)]
          have h3 : ((stop - i) + step - 1) / step = 1 := by
            apply Nat.div_eq_of_lt_le <;> omega
          omega
        · have h1 : (stop - i) - step + step - 1 = (stop - i) - 1 := by omega
          rw [h1]
          rw [show (stop - i) + step - 1 = ((stop - i) - 1) + step * 1 by omega,
            Nat.add_mul_div_left _ _ hs]
      · rw [dif_neg h]
        have h0 : stop - i = 0 := by omega
        rw [h0]
        simp only [List.length_nil, Nat.zero_add]
        exact (Nat.div_eq_of_lt (by omega)).symm
  exact fun i => main (stop - i) i le_rfl

lemma np_arange_length (stop step : ℕ) (hs : 0 < step) :
    (np_arange stop step).length = (stop + step - 1) / step := by
  rw [np_arange, arangeFrom_length stop step hs 0, Nat.sub_zero]

lemma mem_embeddingRow : ∀ v ∈ embeddingRow, 0 < v ∧ v < n_embeddings := by
  decide

lemma mem_zipWith_take {α : Type} :
    ∀ (lengths : List ℕ) (rows : List (List α)) (v : List α),
      v ∈ List.zipWith (fun len e => e.take len) lengths rows →
      ∃ e ∈ rows, ∀ x ∈ v, x ∈ e := by
  intro lengths
  induction lengths with
  | nil => intro rows v hv; simp at hv
  | cons len lt ih =>
    intro rows v hv
    cases rows with
    | nil => simp at hv
    | cons r rt =>
      rw [List.zipWith_cons_cons] at hv
      rcases List.mem_cons.mp hv with rfl | hmem
      · exact ⟨r, List.mem_cons_self r rt,
          fun x hx => List.take_subset len r hx⟩
      · obtain ⟨e, he, hsub⟩ := ih rt v hmem
        exact ⟨e, List.mem_cons_of_mem r he, hsub⟩

lemma varied_forall₂ {α : Type} (P : α → Prop) :
    ∀ (lengths : List ℕ) (frames : List (List α)),
      lengths.length = frames.length →
      (∀ f ∈ frames, f.length = 5 ∧ ∀ row ∈ f, P row) →
      (∀ l ∈ lengths, 2 ≤ l ∧ l < 6) →
      List.Forall₂
        (fun len v => 2 ≤ len ∧ len ≤ 5 ∧ v.length = len ∧ ∀ row ∈ v, P row)
        lengths (List.zipWith (fun len f => f.take len) lengths frames) := by
  intro lengths
  induction lengths with
  | nil => intro frames _ _ _; simp
  | cons len lt ih =>
    intro frames hlen h5 hrange
    cases frames with
    | nil => simp at hlen
    | cons f ft =>
      rw [List.zipWith_cons_cons]
      have hf := h5 f (List.mem_cons_self f ft)
      have hl := hrange len (List.mem_cons_self len lt)
      refine List.Forall₂.cons ⟨hl.1, by omega, ?_, ?_⟩ ?_
      · rw [List.length_take, hf.1]
        omega
      · exact fun row hrow => hf.2 row (List.take_subset len f hrow)
      · exact ih ft (by simpa using hlen)
          (fun g hg => h5 g (List.mem_cons_of_mem f hg))
          (fun l hlmem => hrange l (List.mem_cons_of_mem len hlmem))

/-! ### The claims -/

/-- C1 (counterexample): the claim that after every optimizer step a Lipschitz
projection with strength 4.0 is applied before the next batch fails on the
variable notebook: its training loop, at 15 epochs of 2 batches, contains
optimizer steps but no Lipschitz projection event at all, although every
backpropagated loss is the force-matching criterion. -/
theorem variable_training_no_lipschitz :
    TrainEvent.optStep ∈ variableTrainingEvents 15 2 ∧
    mentionsLipschitz (variableTrainingEvents 15 2) = false ∧
    optFollowedByLip (variableTrainingEvents 15 2) = false ∧
    allBackwardsForceMatching (variableTrainingEvents 15 2) = true := by
  decide

/-- C1 (amended): in the schnet notebook training loop every backpropagated
loss is the ForceLoss criterion applied to the predicted and reference forces
and every optimizer step is immediately followed by a Lipschitz projection of
strength 4.0; in the variable notebook every backpropagated loss is likewise
the force-matching criterion (via dataset_loss), but no Lipschitz projection
is ever applied. -/
theorem training_force_matching_lipschitz (nE nB : ℕ) :
    allBackwardsForceMatching (schnetTrainingEvents nE nB) = true ∧
    optFollowedByLip (schnetTrainingEvents nE nB) = true ∧
    allBackwardsForceMatching (variableTrainingEvents nE nB) = true ∧
    mentionsLipschitz (variableTrainingEvents nE nB) = false := by
  refine ⟨?_, ?_, ?_, ?_⟩
  · induction nE with
    | zero => simp [schnetTrainingEvents, allBackwardsForceMatching]
    | succ e ih =>
      rw [schnetTrainingEvents, allBackwards_append, ih, schnetEpochEvents,
        allBackwards_append, allBackwards_schnetBatches]
      simp [allBackwardsForceMatching, backwardIsForceMatching]
  · induction nE with
    | zero => rfl
    | succ e ih =>
      rw [schnetTrainingEvents, optFollowedByLip_schnetEpoch, ih]
  · induction nE with
    | zero => simp [variableTrainingEvents, allBackwardsForceMatching]
    | succ e ih =>
      rw [variableTrainingEvents, allBackwards_append, ih, variableEpochEvents,
        allBackwards_append, allBackwards_datasetLossBatches]
      simp [allBackwardsForceMatching, backwardIsForceMatching]
  · induction nE with
    | zero => simp [variableTrainingEvents, mentionsLipschitz]
    | succ e ih =>
      rw [variableTrainingEvents, mentionsLipschitz_append, ih,
        variableEpochEvents, mentionsLipschitz_append,
        mentionsLipschitz_datasetLossBatches]
      simp [mentionsLipschitz]

/-- C3 (counterexample): the claimed six-phase pipeline, each phase exactly
once in the order load, dataset, model, train, sim, plot, does not match
either notebook: the deduplicated phase runs differ from that list, and in
the schnet notebook a plotting action (the training-loss figure) comes
before the simulation. -/
theorem phase_order_claim_false :
    dedupRuns (pipelineActions schnetPhases) ≠
      [Phase.load, Phase.dataset, Phase.model, Phase.train, Phase.sim,
       Phase.plot] ∧
    dedupRuns (pipelineActions variablePhases) ≠
      [Phase.load, Phase.dataset, Phase.model, Phase.train, Phase.sim,
       Phase.plot] ∧
    (pipelineActions schnetPhases).indexOf Phase.plot <
      (pipelineActions schnetPhases).indexOf Phase.sim := by
  decide

/-- C3 (amended): both notebooks run load, dataset construction, model
construction and training once each in that order, but a training-loss plot
follows training before the simulation, plotting therefore occurs both
before and after the simulation, and the variable notebook additionally
reloads the data just before simulating. -/
theorem phase_order_actual :
    dedupRuns (pipelineActions schnetPhases) =
      [Phase.load, Phase.dataset, Phase.model, Phase.train, Phase.plot,
       Phase.sim, Phase.plot] ∧
    dedupRuns (pipelineActions variablePhases) =
      [Phase.load, Phase.dataset, Phase.model, Phase.train, Phase.plot,
       Phase.load, Phase.sim, Phase.plot] := by
  decide

/-- C5 (counterexample): the claim that no files other than figures are ever
produced fails when save_model is set: the schnet notebook then writes the
trained model to ./ala2_cgschnet.pt and the variable notebook to
./variable_model.pt. -/
theorem save_model_writes_model_file :
    effectWrites (schnetEffects true ".") = ["./ala2_cgschnet.pt"] ∧
    effectWrites (variableEffects true ".") = ["./variable_model.pt"] := by
  constructor <;> rfl

/-- C5 (amended): for every setting of the save_model flag and directory, the
only disk reads are the two .npy arrays (read twice by the variable
notebook), and the only disk write is the saved model file, present exactly
when save_model is true; all remaining outputs are figures. -/
theorem notebook_effects_characterization (save : Bool) (dir : String) :
    effectReads (schnetEffects save dir) =
      ["./data/ala2_coordinates.npy", "./data/ala2_forces.npy"] ∧
    effectWrites (schnetEffects save dir) =
      (if save then [dir ++ "/ala2_cgschnet.pt"] else []) ∧
    effectReads (variableEffects save dir) =
      ["./data/ala2_coordinates.npy", "./data/ala2_forces.npy",
       "./data/ala2_coordinates.npy", "./data/ala2_forces.npy"] ∧
    effectWrites (variableEffects save dir) =
      (if save then [dir ++ "/variable_model.pt"] else []) := by
  cases save <;>
    simp [schnetEffects, variableEffects, effectReads, effectWrites]

/-- C7: every embedding row either notebook constructs is exactly
[6, 7, 6, 6, 7], so every embedding code, in the tiled arrays and in any
truncated varied embedding list, is strictly positive (never the padding
value 0) and strictly below n_embeddings = 10. -/
theorem embedding_codes_in_range (n : ℕ) (lengths : List ℕ) :
    (∀ row ∈ tile_embeddings n, row = embeddingRow) ∧
    (∀ v ∈ (tile_embeddings n).flatten, 0 < v ∧ v < n_embeddings) ∧
    (∀ v ∈ (varied_embeddings (tile_embeddings n) lengths).flatten,
      0 < v ∧ v < n_embeddings) := by
  refine ⟨fun row hrow => List.eq_of_mem_replicate hrow, ?_, ?_⟩
  · intro v hv
    obtain ⟨row, hrow, hvrow⟩ := List.mem_flatten.mp hv
    rw [List.eq_of_mem_replicate hrow] at hvrow
    exact mem_embeddingRow v hvrow
  · intro v hv
    obtain ⟨e, he, hve⟩ := List.mem_flatten.mp hv
    obtain ⟨row, hrow, hsub⟩ :=
      mem_zipWith_take lengths (tile_embeddings n) e he
    have hvrow := hsub v hve
    rw [List.eq_of_mem_replicate hrow] at hvrow
    exact mem_embeddingRow v hvrow

/-- C7 (witness): the code 7 occurs in the tiled embeddings of three frames
and satisfies the bounds. -/
theorem embedding_codes_in_range_witness : 0 < 7 ∧ 7 < n_embeddings :=
  (embedding_codes_in_range 3 [2, 5, 4]).2.1 7 (by decide)

/-- C9: for a dataset of N frames and 1 <= n_sims <= N requested simulations,
the initial-coordinate construction produces ceil(N / (N // n_sims)) frames;
this is at least n_sims, exceeds n_sims strictly whenever N // n_sims does
not divide N, and can therefore differ from the n_sims rows of embeddings
passed alongside. -/
theorem initial_coords_count (N nSims : ℕ) (h1 : 1 ≤ nSims) (h2 : nSims ≤ N)
    (coords : List Frame) (hcoords : coords.length = N) :
    (initial_coords coords nSims).length =
      (N + N / nSims - 1) / (N / nSims) ∧
    nSims ≤ (initial_coords coords nSims).length ∧
    (¬ N / nSims ∣ N → nSims < (initial_coords coords nSims).length) ∧
    (sim_embeddings N nSims).length = nSims := by
  have hstep : 0 < N / nSims := (Nat.one_le_div_iff (by omega)).mpr h2
  have hlen : (initial_coords coords nSims).length =
      (N + N / nSims - 1) / (N / nSims) := by
    rw [initial_coords, List.length_map, hcoords, np_arange_length _ _ hstep]
  have hfloor : nSims ≤ N / (N / nSims) := by
    rw [Nat.le_div_iff_mul_le hstep]
    calc nSims * (N / nSims) = N / nSims * nSims := Nat.mul_comm _ _
      _ ≤ N := Nat.div_mul_le_self N nSims
  have hceil : N / (N / nSims) ≤ (N + N / nSims - 1) / (N / nSims) :=
    Nat.div_le_div_right (by omega)
  refine ⟨hlen, by rw [hlen]; omega, ?_, ?_⟩
  · intro hnd
    rw [hlen]
    have hmod : N % (N / nSims) ≠ 0 :=
      fun hzero => hnd (Nat.dvd_of_mod_eq_zero hzero)
    have hdm := Nat.div_add_mod N (N / nSims)
    have hmodlt : N % (N / nSims) < N / nSims := Nat.mod_lt _ hstep
    have hrw : N + N / nSims - 1 =
        (N % (N / nSims) + N / nSims - 1) + (N / nSims) * (N / (N / nSims)) := by
      omega
    rw [hrw, Nat.add_mul_div_left _ _ hstep]
    have h1div : (N % (N / nSims) + N / nSims - 1) / (N / nSims) = 1 := by
      apply Nat.div_eq_of_lt_le <;> omega
    omega
  · rw [sim_embeddings, List.length_take, tile_embeddings,
      List.length_replicate]
    omega

/-- C9 (witness): with N = 10 frames and n_sims = 3, the stride is 10 // 3 =
3, which does not divide 10, and the construction yields 4 > 3 initial
frames while only 3 embedding rows are passed. -/
theorem initial_coords_count_witness :
    (1 ≤ 3 ∧ 3 ≤ 10 ∧ (List.replicate 10 ([] : Frame)).length = 10 ∧
      ¬ 10 / 3 ∣ 10) ∧
    3 < (initial_coords (List.replicate 10 ([] : Frame)) 3).length ∧
    (sim_embeddings 10 3).length = 3 := by
  refine ⟨by decide, ?_, ?_⟩
  · exact (initial_coords_count 10 3 (by decide) (by decide) _
      (by decide)).2.2.1 (by decide)
  · exact (initial_coords_count 10 3 (by decide) (by decide)
      (List.replicate 10 ([] : Frame)) (by decide)).2.2.2

/-- C10: the variable-length dataset construction is deterministic in the
ambient random state: because np.random.seed(1133) runs before the only
random draw, two runs from any two ambient generator states produce
identical random lengths and identical varied coordinates, forces and
embeddings, for every model of the numpy generator; by contrast, the same
construction without the seed call does depend on the ambient state. -/
theorem seeded_dataset_deterministic :
    (∀ (σ : Type) (seedFn : ℕ → σ) (randints : σ → ℕ → List ℕ) (a1 a2 : σ)
      (coords forces : List Frame),
      variable_dataset_run seedFn randints a1 coords forces =
        variable_dataset_run seedFn randints a2 coords forces) ∧
    unseeded_dataset_run (fun s n => List.replicate n (s % 4 + 2)) 0
        [[[0]]] [[[0]]] ≠
      unseeded_dataset_run (fun s n => List.replicate n (s % 4 + 2)) 1
        [[[0]]] [[[0]]] := by
  constructor
  · intro σ seedFn randints a1 a2 coords forces
    rfl
  · decide

/-- C4: whenever the drawn lengths satisfy the np.random.randint(2, 6)
contract and the input arrays have the dialanine shapes (frames of 5 beads
with 3 components, matching counts), every varied example at index num has
bead count random_lengths[num] with 2 <= length <= 5, its truncated
coordinates and forces have shape (length, 3), and its truncated embedding
row has length entries. -/
theorem varied_dataset_shapes (coords forces : List Frame) (lengths : List ℕ)
    (hlc : lengths.length = coords.length)
    (hlf : lengths.length = forces.length)
    (hrand : ∀ l ∈ lengths, 2 ≤ l ∧ l < 6)
    (hc : ∀ f ∈ coords, f.length = 5 ∧ ∀ row ∈ f, row.length = 3)
    (hf : ∀ f ∈ forces, f.length = 5 ∧ ∀ row ∈ f, row.length = 3) :
    List.Forall₂ (fun len v => 2 ≤ len ∧ len ≤ 5 ∧ v.length = len ∧
      ∀ row ∈ v, row.length = 3) lengths (varied_coords coords lengths) ∧
    List.Forall₂ (fun len v => 2 ≤ len ∧ len ≤ 5 ∧ v.length = len ∧
      ∀ row ∈ v, row.length = 3) lengths (varied_coords forces lengths) ∧
    List.Forall₂ (fun len e => e.length = len) lengths
      (varied_embeddings (tile_embeddings coords.length) lengths) := by
  refine ⟨varied_forall₂ _ lengths coords hlc hc hrand,
    varied_forall₂ _ lengths forces hlf hf hrand, ?_⟩
  have hemb := varied_forall₂ (fun (_ : ℕ) => True) lengths
    (tile_embeddings coords.length)
    (by rw [tile_embeddings, List.length_replicate]; exact hlc)
    (fun e he => ⟨by rw [List.eq_of_mem_replicate he]; rfl,
      fun _ _ => trivial⟩)
    hrand
  exact hemb.imp (fun a b hab => hab.2.2.1)

/-- C4 (witness): three frames of shape (5, 3) truncated with the concrete
lengths [2, 5, 4] satisfy the shape invariants. -/
theorem varied_dataset_shapes_witness :
    ((∀ l ∈ [2, 5, 4], 2 ≤ l ∧ l < 6) ∧
      ([2, 5, 4] : List ℕ).length =
        (List.replicate 3 (List.replicate 5 (List.replicate 3 (0 : ℚ)))).length) ∧
    List.Forall₂ (fun len v => 2 ≤ len ∧ len ≤ 5 ∧ v.length = len ∧
      ∀ row ∈ v, row.length = 3) [2, 5, 4]
      (varied_coords (List.replicate 3 (List.replicate 5 (List.replicate 3 (0 : ℚ))))
        [2, 5, 4]) := by
  refine ⟨by decide, ?_⟩
  exact (varied_dataset_shapes
    (List.replicate 3 (List.replicate 5 (List.replicate 3 (0 : ℚ))))
    (List.replicate 3 (List.replicate 5 (List.replicate 3 (0 : ℚ))))
    [2, 5, 4] (by decide) (by decide) (by decide) (by decide) (by decide)).1

/-- C2 (counterexample): the claim that no original transformation of data
such as converting histogram counts into free energies is authored locally is
refuted by the plot_ramachandran function both notebooks define: on the
histogram [[1, 1]] its locally authored numeric core produces the free-energy
array [[1e-6, 1e-6]], which is neither the counts (1) nor the populations
(1/2) passed through. -/
theorem plot_ramachandran_counts_to_energies :
    plotRamachandranEnergies [[1, 1]] = some [[1e-6, 1e-6]] ∧
    (1e-6 : ℝ) ≠ 1 ∧ (1e-6 : ℝ) ≠ 1 / 2 := by
  have htot : countsTotal [[1, 1]] = 2 := rfl
  have hb : 0 < binEnergy 2 1 := binEnergy_pos (by norm_num) (by norm_num)
  have hne : binEnergy 2 1 ≠ 0 := hb.ne'
  have hpre : preEnergies [[1, 1]] = [[binEnergy 2 1, binEnergy 2 1]] := by
    rw [preEnergies_eq, htot]
    rfl
  have hnz : nonzeroEntries (preEnergies [[1, 1]]) =
      [binEnergy 2 1, binEnergy 2 1] := by
    rw [hpre, nonzeroEntries]
    simp [hne]
  have hmin : npMin (nonzeroEntries (preEnergies [[1, 1]])) =
      some (binEnergy 2 1) := by
    rw [hnz, npMin, npMin, npMin]
    simp [Option.elim]
  refine ⟨?_, by norm_num, by norm_num⟩
  have hres : plotRamachandranEnergies [[1, 1]] =
      some (shiftEnergies (preEnergies [[1, 1]]) (binEnergy 2 1)) := by
    unfold plotRamachandranEnergies
    rw [hmin]
  rw [hres, hpre, shiftEnergies]
  simp [hne]

/-- C2 (amended): the notebooks delegate modelling, training and simulation
to the library, but plot_ramachandran does author one local transformation
converting histogram counts into free energies: on every histogram with at
least two populated bins its output on a populated bin of count c equals the
Boltzmann inversion -0.6 * log(c / total) up to one additive constant common
to all bins, and empty bins get energy 0. -/
theorem plot_ramachandran_boltzmann_inversion (counts : List (List ℕ))
    (H : hasTwoPopulated counts) :
    ∃ E C, plotRamachandranEnergies counts = some E ∧
      List.Forall₂ (List.Forall₂ (fun (c : ℕ) (e : ℝ) =>
        (0 < c → e = -0.6 * Real.log ((c : ℝ) / (countsTotal counts : ℝ)) + C) ∧
        (c = 0 → e = 0))) counts E := by
  obtain ⟨m, hm, hmpos, hmle⟩ := npMin_preEnergies_exists H
  refine ⟨shiftEnergies (preEnergies counts) m, 1e-6 - m, ?_, ?_⟩
  · unfold plotRamachandranEnergies
    rw [hm]
  · rw [preEnergies_eq, shiftEnergies, List.map_map]
    apply forall₂_map_self
    intro r hr
    simp only [Function.comp_apply]
    rw [List.map_map]
    apply forall₂_map_self
    intro c hc
    simp only [Function.comp_apply]
    constructor
    · intro hcpos
      have hcflat : c ∈ counts.flatten := List.mem_flatten.mpr ⟨r, hr, hc⟩
      have hlt := mem_lt_total H hcflat
      have hbpos := binEnergy_pos hcpos hlt
      rw [if_pos hbpos.ne']
      have hbval : binEnergy (countsTotal counts) c =
          -0.6 * Real.log ((c : ℝ) / (countsTotal counts : ℝ)) := by
        rw [binEnergy, npLogWhere, if_pos]
        · congr 1
          push_cast
          ring
        · apply div_pos
          · exact_mod_cast hcpos
          · exact_mod_cast lt_trans hcpos hlt
      rw [hbval]
      ring
    · intro hczero
      subst hczero
      rw [binEnergy_zero_count]
      simp

/-- C2 (witness): the histogram [[1, 1], [0, 0]] has two populated bins, so
the locally authored counts-to-free-energy transformation applies to it. -/
theorem plot_ramachandran_boltzmann_inversion_witness :
    hasTwoPopulated [[1, 1], [0, 0]] ∧
    ∃ E C, plotRamachandranEnergies [[1, 1], [0, 0]] = some E ∧
      List.Forall₂ (List.Forall₂ (fun (c : ℕ) (e : ℝ) =>
        (0 < c →
          e = -0.6 * Real.log ((c : ℝ) / (countsTotal [[1, 1], [0, 0]] : ℝ)) + C) ∧
        (c = 0 → e = 0))) [[1, 1], [0, 0]] E :=
  ⟨by decide, plot_ramachandran_boltzmann_inversion [[1, 1], [0, 0]] (by decide)⟩

/-- C6 (counterexample): the claim that no authored code guards against or
transforms a failure condition is refuted by the where-mask the notebooks
put on np.log inside plot_ramachandran: at population 0 the unguarded
logarithm is undefined, while the authored guarded version substitutes 0. -/
theorem np_log_where_guard : npLogOpt 0 = none ∧ npLogWhere 0 = 0 := by
  constructor
  · simp [npLogOpt]
  · simp [npLogWhere]

/-- C6 (amended): the notebooks author no exception handling, but the
where-guard on np.log in plot_ramachandran is authored code that guards a
failure condition: on any histogram that has an empty bin and at least two
populated bins, the computation without the guard is undefined while the
guarded computation of the notebooks succeeds. -/
theorem log_guard_makes_energies_total (counts : List (List ℕ))
    (h0 : 0 ∈ counts.flatten) (H : hasTwoPopulated counts) :
    plotRamachandranEnergiesUnguarded counts = none ∧
    (plotRamachandranEnergies counts).isSome = true := by
  constructor
  · obtain ⟨r, hr, h0r⟩ := List.mem_flatten.mp h0
    have hrow : r.map (fun (c : ℕ) => (c : ℚ) / (countsTotal counts : ℚ)) ∈
        populations counts := List.mem_map_of_mem _ hr
    have hpop0 : ((0 : ℕ) : ℚ) / (countsTotal counts : ℚ) ∈
        r.map (fun (c : ℕ) => (c : ℚ) / (countsTotal counts : ℚ)) :=
      List.mem_map_of_mem _ h0r
    have hinner : optMapList
        (fun p => (npLogOpt p).map (fun v => -0.6 * v))
        (r.map (fun (c : ℕ) => (c : ℚ) / (countsTotal counts : ℚ))) = none := by
      apply optMapList_eq_none _ hpop0
      simp [npLogOpt]
    have houter : preEnergiesUnguarded counts = none :=
      optMapList_eq_none _ hrow hinner
    unfold plotRamachandranEnergiesUnguarded
    rw [houter]
  · obtain ⟨m, hm, _, _⟩ := npMin_preEnergies_exists H
    unfold plotRamachandranEnergies
    rw [hm]
    rfl

/-- C6 (witness): the histogram [[1, 0], [1, 1]] has an empty bin and two
populated bins; the unguarded computation fails on it and the guarded one
succeeds. -/
theorem log_guard_makes_energies_total_witness :
    (0 ∈ ([[1, 0], [1, 1]] : List (List ℕ)).flatten ∧
      hasTwoPopulated [[1, 0], [1, 1]]) ∧
    plotRamachandranEnergiesUnguarded [[1, 0], [1, 1]] = none ∧
    (plotRamachandranEnergies [[1, 0], [1, 1]]).isSome = true :=
  ⟨⟨by decide, by decide⟩,
    log_guard_makes_energies_total [[1, 0], [1, 1]] (by decide) (by decide)⟩

/-- C8 (counterexample): on the histogram [[1, 0], [0, 0]], whose counts are
not all zero but concentrate in one bin, every pre-shift energy is zero, so
np.min is taken over an empty array and plot_ramachandran raises instead of
computing an energies array. -/
theorem single_populated_bin_raises :
    plotRamachandranEnergies [[1, 0], [0, 0]] = none ∧
    ([[1, 0], [0, 0]] : List (List ℕ)).flatten ≠ [0, 0, 0, 0] := by
  constructor
  · have htot : countsTotal [[1, 0], [0, 0]] = 1 := rfl
    have h11 : binEnergy 1 1 = 0 := by
      rw [binEnergy, npLogWhere]
      norm_num
    have h10 : binEnergy 1 0 = 0 := binEnergy_zero_count 1
    have hpre : preEnergies [[1, 0], [0, 0]] =
        [[binEnergy 1 1, binEnergy 1 0], [binEnergy 1 0, binEnergy 1 0]] := by
      rw [preEnergies_eq, htot]
      rfl
    have hnz : nonzeroEntries (preEnergies [[1, 0], [0, 0]]) = [] := by
      rw [hpre, nonzeroEntries]
      simp [h11, h10]
    unfold plotRamachandranEnergies
    rw [hnz]
    rfl
  · decide

/-- C8 (amended): for every histogram with at least two populated bins, the
plot_ramachandran energies array exists, is nonnegative everywhere, assigns
0 to every empty bin and masks it out of the plot, and the minimum over the
remaining nonzero entries is exactly 1e-6. -/
theorem rama_energies_nonneg_min_shift (counts : List (List ℕ))
    (H : hasTwoPopulated counts) :
    ∃ E, plotRamachandranEnergies counts = some E ∧
      (∀ e ∈ E.flatten, 0 ≤ e) ∧
      List.Forall₂ (List.Forall₂ (fun c e => c = 0 → e = 0)) counts E ∧
      List.Forall₂ (List.Forall₂ (fun c z => c = 0 → z = none)) counts
        (zvalsMasked E) ∧
      npMin (nonzeroEntries E) = some 1e-6 := by
  obtain ⟨m, hm, hmpos, hmle⟩ := npMin_preEnergies_exists H
  have h6 : (0 : ℝ) < 1e-6 := by norm_num
  refine ⟨shiftEnergies (preEnergies counts) m, ?_, ?_, ?_, ?_, ?_⟩
  · unfold plotRamachandranEnergies
    rw [hm]
  · intro e he
    rw [shiftEnergies_flatten, List.mem_map] at he
    obtain ⟨x, hx, hxe⟩ := he
    by_cases hx0 : x = 0
    · rw [← hxe, hx0]
      simp
    · have hxnz : x ∈ nonzeroEntries (preEnergies counts) :=
        List.mem_filter.mpr ⟨hx, by simpa using hx0⟩
      have hmx := hmle x hxnz
      rw [← hxe, if_pos hx0]
      linarith
  · rw [preEnergies_eq, shiftEnergies, List.map_map]
    apply forall₂_map_self
    intro r hr
    simp only [Function.comp_apply]
    rw [List.map_map]
    apply forall₂_map_self
    intro c hc
    simp only [Function.comp_apply]
    intro hczero
    subst hczero
    rw [binEnergy_zero_count]
    simp
  · rw [preEnergies_eq, shiftEnergies, zvalsMasked, List.map_map, List.map_map]
    apply forall₂_map_self
    intro r hr
    simp only [Function.comp_apply]
    rw [List.map_map, List.map_map]
    apply forall₂_map_self
    intro c hc
    simp only [Function.comp_apply]
    intro hczero
    subst hczero
    rw [binEnergy_zero_count]
    simp
  · have hkey : nonzeroEntries (shiftEnergies (preEnergies counts) m) =
        (nonzeroEntries (preEnergies counts)).map (fun x => x + (1e-6 - m)) := by
      rw [nonzeroEntries, shiftEnergies_flatten]
      have hex := filter_map_exchange
        (fun x => if x ≠ 0 then x - m + 1e-6 else 0)
        (fun x => decide (x ≠ 0)) (fun x => decide (x ≠ 0))
        (preEnergies counts).flatten ?hcond
      · rw [hex]
        apply List.map_congr_left
        intro x hxmem
        have hx0 : x ≠ 0 := by
          have := (List.mem_filter.mp hxmem).2
          simpa using this
        rw [if_pos hx0]
        ring
      case hcond =>
        intro x hxmem
        show decide ((if x ≠ 0 then x - m + 1e-6 else 0) ≠ 0) = decide (x ≠ 0)
        by_cases hx0 : x = 0
        · rw [hx0]
          simp
        · have hxnz : x ∈ nonzeroEntries (preEnergies counts) :=
            List.mem_filter.mpr ⟨hxmem, by simpa using hx0⟩
          have hmx := hmle x hxnz
          have hpos : (0 : ℝ) < x - m + 1e-6 := by linarith
          rw [if_pos hx0]
          simp [hx0, hpos.ne']
    rw [hkey, npMin_map_add, hm]
    show some (m + (1e-6 - m)) = some 1e-6
    congr 1
    ring

/-- C8 (witness): the histogram [[1, 1], [1, 0]] has three populated bins,
so the amended energy properties apply to it. -/
theorem rama_energies_nonneg_min_shift_witness :
    hasTwoPopulated [[1, 1], [1, 0]] ∧
    ∃ E, plotRamachandranEnergies [[1, 1], [1, 0]] = some E ∧
      (∀ e ∈ E.flatten, 0 ≤ e) ∧
      List.Forall₂ (List.Forall₂ (fun c e => c = 0 → e = 0)) [[1, 1], [1, 0]] E ∧
      List.Forall₂ (List.Forall₂ (fun c z => c = 0 → z = none)) [[1, 1], [1, 0]]
        (zvalsMasked E) ∧
      npMin (nonzeroEntries E) = some 1e-6 :=
  ⟨by decide, rama_energies_nonneg_min_shift [[1, 1], [1, 0]] (by decide)⟩

end CGnetNB
